import Mathlib

/-!
Shallow embedding of `src/Arduino/V0p2_Main/Schedule.cpp` (OpenTRV V0p2
simple-schedule support) and proofs about it.

The module stores one compressed anchor byte per schedule slot in EEPROM,
derives an effective on/off window from it (pre-warm offsets, midnight
wrap-around), and answers aggregate queries over all slots.  The EEPROM is
modelled as a function from addresses to stored values (reads truncate to a
byte), the real-time clock and the eco/comfort policy classification are
parameters, and machine integers are `Nat` with an explicit `% 256` wherever
a C `uint8_t` store truncates.  On the AVR target `uint_least16_t` is 16 bits
wide and `(uint_least16_t)~0` is 65535; 16-bit quantities in this code never
exceed 65535 for well-formed configurations, so no `% 65536` is needed.
-/

namespace OpenTRV

/-- Minutes per day, `OTV0P2BASE::MINS_PER_DAY`. -/
def MINS_PER_DAY : Nat := 1440

/-- The invalid-time sentinel `(uint_least16_t)~0` on the 16-bit AVR target. -/
def invalidTime : Nat := 65535

/-- Modelled from the spec: the compile-time configuration constants
`MAX_SIMPLE_SCHEDULES`, `SIMPLE_SCHEDULE_GRANULARITY_MINS`,
`LEARNED_ON_PERIOD_M` and `LEARNED_ON_PERIOD_COMFORT_M` are defined in
headers that are not part of the source under verification, so the
development is parametric in them. -/
structure Config where
  MAX_SIMPLE_SCHEDULES : Nat
  SIMPLE_SCHEDULE_GRANULARITY_MINS : Nat
  LEARNED_ON_PERIOD_M : Nat
  LEARNED_ON_PERIOD_COMFORT_M : Nat

/-- Modelled from the spec: well-formedness of a build configuration.  The
spec's data model stores the compressed anchor in one byte per slot
(`value v in [0, MAX_COMPRESSED]` with `MAX_COMPRESSED` a `uint8_t`), the
granularity divides the day evenly and is positive, slot indices are
`uint8_t`, the on-periods are `uint8_t` minute counts, and the derived
pre-warm offsets (about 36 and 54 minutes in the documented build) fit
their `uint8_t` type without truncation. -/
abbrev ConfigOK (c : Config) : Prop :=
  0 < c.SIMPLE_SCHEDULE_GRANULARITY_MINS ∧
  c.SIMPLE_SCHEDULE_GRANULARITY_MINS ∣ MINS_PER_DAY ∧
  MINS_PER_DAY / c.SIMPLE_SCHEDULE_GRANULARITY_MINS ≤ 256 ∧
  max 30 (c.SIMPLE_SCHEDULE_GRANULARITY_MINS + c.LEARNED_ON_PERIOD_M / 2) ≤ 170 ∧
  c.LEARNED_ON_PERIOD_M ≤ 255 ∧
  c.LEARNED_ON_PERIOD_COMFORT_M ≤ 255 ∧
  c.MAX_SIMPLE_SCHEDULES ≤ 255

/-- `MAX_COMPRESSED_MINS_AFTER_MIDNIGHT = (MINS_PER_DAY / GRANULARITY) - 1`,
stored in a `uint8_t` (`static const uint8_t` in the source). -/
def MAX_COMPRESSED_MINS_AFTER_MIDNIGHT (c : Config) : Nat :=
  (MINS_PER_DAY / c.SIMPLE_SCHEDULE_GRANULARITY_MINS - 1) % 256

/-- `PREWARM_MINS = max(30, GRANULARITY + LEARNED_ON_PERIOD_M / 2)`, stored
in a `uint8_t`. -/
def PREWARM_MINS (c : Config) : Nat :=
  (max 30 (c.SIMPLE_SCHEDULE_GRANULARITY_MINS + c.LEARNED_ON_PERIOD_M / 2)) % 256

/-- `PREPREWARM_MINS = 3 * (PREWARM_MINS / 2)`, stored in a `uint8_t`. -/
def PREPREWARM_MINS (c : Config) : Nat :=
  (3 * (PREWARM_MINS c / 2)) % 256

/-- Modelled from the spec: the Policy Source's classification of the current
WARM target temperature.  `getWARMTargetC`, `isEcoTemperature` and
`isComfortTemperature` live in `Control.h`, outside the source under
verification; only the three-way outcome matters to `onTime`. -/
inductive TempClass where
  | eco
  | comfort
  | mid

/-- `onTime()`: the scheduled on-duration in minutes.  When the two
configured on-periods are equal the source compiles the simplified branch
returning `LEARNED_ON_PERIOD_M`; otherwise it selects by the three-way
temperature classification. -/
def onTime (c : Config) (tc : TempClass) : Nat :=
  if c.LEARNED_ON_PERIOD_M = c.LEARNED_ON_PERIOD_COMFORT_M then
    c.LEARNED_ON_PERIOD_M % 256
  else
    match tc with
    | TempClass.eco => c.LEARNED_ON_PERIOD_M % 256
    | TempClass.comfort => c.LEARNED_ON_PERIOD_COMFORT_M % 256
    | TempClass.mid => ((c.LEARNED_ON_PERIOD_M + c.LEARNED_ON_PERIOD_COMFORT_M) / 2) % 256

/-- `getSimpleScheduleOn(which)`: minutes after midnight of the effective on
time, or the invalid sentinel.  `ee` is the EEPROM contents, `base` the
address `V0P2BASE_EE_START_SIMPLE_SCHEDULE0_ON`.  The wind-back by
`PREWARM_MINS` is the `LEARN_BUTTON_AVAILABLE` build path described by the
spec. -/
def getSimpleScheduleOn (c : Config) (ee : Nat → Nat) (base which : Nat) : Nat :=
  if c.MAX_SIMPLE_SCHEDULES ≤ which then invalidTime
  else if MAX_COMPRESSED_MINS_AFTER_MIDNIGHT c < ee (base + which) % 256 then invalidTime
  else if c.SIMPLE_SCHEDULE_GRANULARITY_MINS * (ee (base + which) % 256) < PREWARM_MINS c then
    c.SIMPLE_SCHEDULE_GRANULARITY_MINS * (ee (base + which) % 256) + MINS_PER_DAY - PREWARM_MINS c
  else
    c.SIMPLE_SCHEDULE_GRANULARITY_MINS * (ee (base + which) % 256) - PREWARM_MINS c

/-- `getSimpleScheduleOff(which)`: minutes after midnight of the effective
off time, or the invalid sentinel; the end is the effective on time plus
`PREWARM_MINS` plus `onTime()`, reduced once for midnight wrap-around. -/
def getSimpleScheduleOff (c : Config) (tc : TempClass) (ee : Nat → Nat) (base which : Nat) : Nat :=
  if getSimpleScheduleOn c ee base which = invalidTime then invalidTime
  else if MINS_PER_DAY ≤ getSimpleScheduleOn c ee base which + PREWARM_MINS c + onTime c tc then
    getSimpleScheduleOn c ee base which + PREWARM_MINS c + onTime c tc - MINS_PER_DAY
  else
    getSimpleScheduleOn c ee base which + PREWARM_MINS c + onTime c tc

/-- `setSimpleSchedule(startMinutesSinceMidnightLT, which)`: returns the C
function's boolean result together with the EEPROM contents after the call.
The stored byte is `startMinutesSinceMidnightLT / GRANULARITY` truncated to
`uint8_t`; `eeprom_smart_update_byte` leaves the byte with exactly that
value. -/
def setSimpleSchedule (c : Config) (ee : Nat → Nat) (base startMin which : Nat) :
    Bool × (Nat → Nat) :=
  if c.MAX_SIMPLE_SCHEDULES ≤ which then (false, ee)
  else if MINS_PER_DAY ≤ startMin then (false, ee)
  else
    (true, fun a =>
      if a = base + which then startMin / c.SIMPLE_SCHEDULE_GRANULARITY_MINS % 256 else ee a)

/-- `clearSimpleSchedule(which)`: the EEPROM contents after the call;
`eeprom_smart_erase_byte` leaves the byte in the unprogrammed state 0xFF. -/
def clearSimpleSchedule (c : Config) (ee : Nat → Nat) (base which : Nat) : Nat → Nat :=
  if c.MAX_SIMPLE_SCHEDULES ≤ which then ee
  else fun a => if a = base + which then 255 else ee a

/-- The unit-test override `_soUT_override`; `none` is the default 0 value
meaning no override, for which each query falls through to the real
computation. -/
inductive TestOverride where
  | none
  | off
  | soon
  | now

/-- `isAnySimpleScheduleSet()`: true iff some slot's byte holds a valid
compressed anchor. -/
def isAnySimpleScheduleSet (ov : TestOverride) (c : Config) (ee : Nat → Nat) (base : Nat) : Bool :=
  match ov with
  | TestOverride.off => false
  | TestOverride.soon => true
  | TestOverride.now => true
  | TestOverride.none =>
    (List.range c.MAX_SIMPLE_SCHEDULES).any fun which =>
      decide (ee (base + which) % 256 ≤ MAX_COMPRESSED_MINS_AFTER_MIDNIGHT c)

/-- Body of the per-slot loop shared verbatim by `isAnyScheduleOnWARMNow`
and `isAnyScheduleOnWARMSoon`: skip the slot when `mm < s` (which also skips
unset slots, `s` being the maximal sentinel), widen a wrapped window's end
by a day, and test `mm < e`. -/
def slotOnAt (c : Config) (tc : TempClass) (ee : Nat → Nat) (base mm which : Nat) : Bool :=
  if mm < getSimpleScheduleOn c ee base which then false
  else if getSimpleScheduleOff c tc ee base which < getSimpleScheduleOn c ee base which then
    decide (mm < getSimpleScheduleOff c tc ee base which + MINS_PER_DAY)
  else
    decide (mm < getSimpleScheduleOff c tc ee base which)

/-- `isAnyScheduleOnWARMNow()`: `mm` is `OTV0P2BASE::getMinutesSinceMidnightLT()`,
an external clock reading. -/
def isAnyScheduleOnWARMNow (ov : TestOverride) (c : Config) (tc : TempClass)
    (ee : Nat → Nat) (base mm : Nat) : Bool :=
  match ov with
  | TestOverride.off => false
  | TestOverride.soon => false
  | TestOverride.now => true
  | TestOverride.none =>
    (List.range c.MAX_SIMPLE_SCHEDULES).any fun which => slotOnAt c tc ee base mm which

/-- `isAnyScheduleOnWARMSoon()`: the same scan evaluated at the look-ahead
instant `mm + PREPREWARM_MINS`, wrapped once at midnight. -/
def isAnyScheduleOnWARMSoon (ov : TestOverride) (c : Config) (tc : TempClass)
    (ee : Nat → Nat) (base mm : Nat) : Bool :=
  match ov with
  | TestOverride.off => false
  | TestOverride.soon => true
  | TestOverride.now => false
  | TestOverride.none =>
    (List.range c.MAX_SIMPLE_SCHEDULES).any fun which =>
      slotOnAt c tc ee base
        (if MINS_PER_DAY ≤ mm + PREPREWARM_MINS c then mm + PREPREWARM_MINS c - MINS_PER_DAY
         else mm + PREPREWARM_MINS c) which

/-- Documented build values: granularity 6, learned on-period 60, comfort
on-period 120 (the source comments record 60 for `LEARNED_ON_PERIOD_M` and
the resulting pre-warm of about 36 minutes); two slots. -/
def cfgA : Config := ⟨2, 6, 60, 120⟩

/-- Configuration realising the spec's window-containment scenario:
granularity 6, eco on-period 56 (pre-warm 34), comfort on-period 6. -/
def cfgB : Config := ⟨1, 6, 56, 6⟩

/-- Configuration whose pre-warm offset is exactly 40: granularity 10,
on-period 60 for both biases. -/
def cfgC : Config := ⟨1, 10, 60, 60⟩

/-- EEPROM entirely in the unprogrammed state. -/
def eeFF : Nat → Nat := fun _ => 255

/-- EEPROM with every byte 4 (anchor 24 under granularity 6). -/
def ee4 : Nat → Nat := fun _ => 4

/-- EEPROM with every byte 143 (anchor 1430 under granularity 10). -/
def ee143 : Nat → Nat := fun _ => 143

/-- EEPROM with every byte 3 (anchor 30 under granularity 10). -/
def ee3 : Nat → Nat := fun _ => 3

/-- EEPROM with every byte 100. -/
def ee100 : Nat → Nat := fun _ => 100

/-- C1: with no test override, a slot with effective on-time 1430 and
effective off-time 30 (a window wrapping midnight) makes
`isAnyScheduleOnWARMNow` return true at 1435 minutes after midnight, but at
10 minutes after midnight — inside the post-midnight tail of the window —
the loop skips the slot because `mm < s`, so the function returns false
where the claim (and the function's own comment) require true; at 100 it
returns false as claimed. -/
theorem warmNow_wrapped_window_eval :
    ConfigOK cfgB ∧
    getSimpleScheduleOn cfgB ee4 0 0 = 1430 ∧
    getSimpleScheduleOff cfgB TempClass.comfort ee4 0 0 = 30 ∧
    isAnyScheduleOnWARMNow TestOverride.none cfgB TempClass.comfort ee4 0 1435 = true ∧
    isAnyScheduleOnWARMNow TestOverride.none cfgB TempClass.comfort ee4 0 10 = false ∧
    isAnyScheduleOnWARMNow TestOverride.none cfgB TempClass.comfort ee4 0 100 = false := by
  decide

/-- A `uint8_t` value is at most 255. -/
theorem mod256_le (x : Nat) : x % 256 ≤ 255 := by omega

/-- `onTime()` returns a `uint8_t`, hence at most 255 minutes. -/
theorem onTime_le (c : Config) (tc : TempClass) : onTime c tc ≤ 255 := by
  unfold onTime
  by_cases h : c.LEARNED_ON_PERIOD_M = c.LEARNED_ON_PERIOD_COMFORT_M
  · rw [if_pos h]; exact mod256_le _
  · rw [if_neg h]
    cases tc
    · exact mod256_le _
    · exact mod256_le _
    · exact mod256_le _

/-- A valid effective on time is strictly inside the day. -/
theorem getSimpleScheduleOn_lt (c : Config) (ee : Nat → Nat) (base k : Nat)
    (hg : 0 < c.SIMPLE_SCHEDULE_GRANULARITY_MINS)
    (hd : c.SIMPLE_SCHEDULE_GRANULARITY_MINS ∣ MINS_PER_DAY)
    (hb : MINS_PER_DAY / c.SIMPLE_SCHEDULE_GRANULARITY_MINS ≤ 256)
    (h : getSimpleScheduleOn c ee base k ≠ invalidTime) :
    getSimpleScheduleOn c ee base k < MINS_PER_DAY := by
  have hb2 : (1440 : Nat) / c.SIMPLE_SCHEDULE_GRANULARITY_MINS ≤ 256 := hb
  have hd2 : c.SIMPLE_SCHEDULE_GRANULARITY_MINS ∣ 1440 := hd
  unfold getSimpleScheduleOn at h ⊢
  by_cases h1 : c.MAX_SIMPLE_SCHEDULES ≤ k
  · rw [if_pos h1] at h; exact absurd rfl h
  rw [if_neg h1] at h ⊢
  by_cases h2 : MAX_COMPRESSED_MINS_AFTER_MIDNIGHT c < ee (base + k) % 256
  · rw [if_pos h2] at h; exact absurd rfl h
  rw [if_neg h2] at h ⊢
  simp only [MINS_PER_DAY]
  have hmc : MAX_COMPRESSED_MINS_AFTER_MIDNIGHT c =
      1440 / c.SIMPLE_SCHEDULE_GRANULARITY_MINS - 1 := by
    unfold MAX_COMPRESSED_MINS_AFTER_MIDNIGHT
    simp only [MINS_PER_DAY]
    omega
  have hdpos : 0 < 1440 / c.SIMPLE_SCHEDULE_GRANULARITY_MINS :=
    Nat.div_pos (Nat.le_of_dvd (by norm_num) hd2) hg
  have hmul : c.SIMPLE_SCHEDULE_GRANULARITY_MINS *
      (1440 / c.SIMPLE_SCHEDULE_GRANULARITY_MINS - 1) +
      c.SIMPLE_SCHEDULE_GRANULARITY_MINS = 1440 := by
    have h4 : 1440 / c.SIMPLE_SCHEDULE_GRANULARITY_MINS - 1 + 1 =
        1440 / c.SIMPLE_SCHEDULE_GRANULARITY_MINS := Nat.succ_pred_eq_of_pos hdpos
    calc c.SIMPLE_SCHEDULE_GRANULARITY_MINS *
          (1440 / c.SIMPLE_SCHEDULE_GRANULARITY_MINS - 1) +
          c.SIMPLE_SCHEDULE_GRANULARITY_MINS
        = c.SIMPLE_SCHEDULE_GRANULARITY_MINS *
          (1440 / c.SIMPLE_SCHEDULE_GRANULARITY_MINS - 1 + 1) := by ring
      _ = c.SIMPLE_SCHEDULE_GRANULARITY_MINS *
          (1440 / c.SIMPLE_SCHEDULE_GRANULARITY_MINS) := by rw [h4]
      _ = 1440 := Nat.mul_div_cancel' hd2
  have hbyte : ee (base + k) % 256 ≤ 1440 / c.SIMPLE_SCHEDULE_GRANULARITY_MINS - 1 := by
    omega
  have hst : c.SIMPLE_SCHEDULE_GRANULARITY_MINS * (ee (base + k) % 256) ≤
      c.SIMPLE_SCHEDULE_GRANULARITY_MINS *
        (1440 / c.SIMPLE_SCHEDULE_GRANULARITY_MINS - 1) :=
    Nat.mul_le_mul_left _ hbyte
  have hP : PREWARM_MINS c ≤ 255 := mod256_le _
  by_cases h3 : c.SIMPLE_SCHEDULE_GRANULARITY_MINS * (ee (base + k) % 256) < PREWARM_MINS c
  · rw [if_pos h3]
    omega
  · rw [if_neg h3]
    omega

/-- An invalid on time propagates to the off time. -/
theorem getSimpleScheduleOff_of_invalid (c : Config) (tc : TempClass) (ee : Nat → Nat)
    (base k : Nat) (h : getSimpleScheduleOn c ee base k = invalidTime) :
    getSimpleScheduleOff c tc ee base k = invalidTime := by
  unfold getSimpleScheduleOff; rw [if_pos h]

/-- For a valid on time the single conditional subtraction in
`getSimpleScheduleOff` computes the remainder modulo the day length. -/
theorem getSimpleScheduleOff_eq (c : Config) (tc : TempClass) (ee : Nat → Nat) (base k : Nat)
    (hg : 0 < c.SIMPLE_SCHEDULE_GRANULARITY_MINS)
    (hd : c.SIMPLE_SCHEDULE_GRANULARITY_MINS ∣ MINS_PER_DAY)
    (hb : MINS_PER_DAY / c.SIMPLE_SCHEDULE_GRANULARITY_MINS ≤ 256)
    (h : getSimpleScheduleOn c ee base k ≠ invalidTime) :
    getSimpleScheduleOff c tc ee base k =
      (getSimpleScheduleOn c ee base k + PREWARM_MINS c + onTime c tc) % MINS_PER_DAY := by
  have hs := getSimpleScheduleOn_lt c ee base k hg hd hb h
  have hP : PREWARM_MINS c ≤ 255 := mod256_le _
  have hT : onTime c tc ≤ 255 := onTime_le c tc
  unfold getSimpleScheduleOff
  rw [if_neg h]
  by_cases h2 : MINS_PER_DAY ≤ getSimpleScheduleOn c ee base k + PREWARM_MINS c + onTime c tc
  · have hlt : getSimpleScheduleOn c ee base k + PREWARM_MINS c + onTime c tc - MINS_PER_DAY <
        MINS_PER_DAY := by
      simp only [MINS_PER_DAY] at hs ⊢
      omega
    rw [if_pos h2, Nat.mod_eq_sub_mod h2, Nat.mod_eq_of_lt hlt]
  · rw [if_neg h2, Nat.mod_eq_of_lt (Nat.not_le.mp h2)]

/-- `getSimpleScheduleOn` only reads the one EEPROM byte of its slot. -/
theorem getSimpleScheduleOn_congr (c : Config) (ee1 ee2 : Nat → Nat) (base k : Nat)
    (h : ee1 (base + k) = ee2 (base + k)) :
    getSimpleScheduleOn c ee1 base k = getSimpleScheduleOn c ee2 base k := by
  unfold getSimpleScheduleOn; rw [h]

/-- A requested minute below the day length compresses to a byte whenever the
configured granularity lets every compressed anchor fit one byte. -/
theorem div_lt_256 (g m : Nat) (hb : MINS_PER_DAY / g ≤ 256) (hm : m < MINS_PER_DAY) :
    m / g < 256 := by
  simp only [MINS_PER_DAY] at hb hm
  rcases Nat.lt_or_ge g 6 with h6 | h6
  · interval_cases g <;> omega
  · have h1 : m / g ≤ m / 6 := Nat.div_le_div_left h6 (by norm_num)
    have h2 : m / 6 ≤ 1439 / 6 := Nat.div_le_div_right (by omega)
    omega

/-- C7: when the test override is set, the three queries return the fixed
truth table regardless of configuration, persisted content, policy state and
current time: off gives (false, false, false), soon gives (true, false,
true), now gives (true, true, false) for (isAnySimpleScheduleSet,
isAnyScheduleOnWARMNow, isAnyScheduleOnWARMSoon). -/
theorem override_truth_tables (c : Config) (tc : TempClass) (ee : Nat → Nat) (base mm : Nat) :
    (isAnySimpleScheduleSet TestOverride.off c ee base = false ∧
      isAnyScheduleOnWARMNow TestOverride.off c tc ee base mm = false ∧
      isAnyScheduleOnWARMSoon TestOverride.off c tc ee base mm = false) ∧
    (isAnySimpleScheduleSet TestOverride.soon c ee base = true ∧
      isAnyScheduleOnWARMNow TestOverride.soon c tc ee base mm = false ∧
      isAnyScheduleOnWARMSoon TestOverride.soon c tc ee base mm = true) ∧
    (isAnySimpleScheduleSet TestOverride.now c ee base = true ∧
      isAnyScheduleOnWARMNow TestOverride.now c tc ee base mm = true ∧
      isAnyScheduleOnWARMSoon TestOverride.now c tc ee base mm = false) :=
  ⟨⟨rfl, rfl, rfl⟩, ⟨rfl, rfl, rfl⟩, ⟨rfl, rfl, rfl⟩⟩

/-- C2: for a valid slot and a valid requested minute, setting the schedule
and reading the effective on time back yields the requested minute rounded
down to the granularity, minus the pre-warm offset, wrapped forward by a
day when the subtraction would go negative. -/
theorem setSchedule_getOn_roundtrip (c : Config) (ee : Nat → Nat) (base m k : Nat)
    (hc : ConfigOK c) (hk : k < c.MAX_SIMPLE_SCHEDULES) (hm : m < MINS_PER_DAY) :
    getSimpleScheduleOn c (setSimpleSchedule c ee base m k).2 base k =
      (if m / c.SIMPLE_SCHEDULE_GRANULARITY_MINS * c.SIMPLE_SCHEDULE_GRANULARITY_MINS <
          PREWARM_MINS c
       then m / c.SIMPLE_SCHEDULE_GRANULARITY_MINS * c.SIMPLE_SCHEDULE_GRANULARITY_MINS +
         MINS_PER_DAY - PREWARM_MINS c
       else m / c.SIMPLE_SCHEDULE_GRANULARITY_MINS * c.SIMPLE_SCHEDULE_GRANULARITY_MINS -
         PREWARM_MINS c) := by
  obtain ⟨hg, hd, hb, -, -, -, -⟩ := hc
  have hdiv : m / c.SIMPLE_SCHEDULE_GRANULARITY_MINS <
      MINS_PER_DAY / c.SIMPLE_SCHEDULE_GRANULARITY_MINS :=
    Nat.div_lt_div_of_lt_of_dvd hd hm
  have h256 : m / c.SIMPLE_SCHEDULE_GRANULARITY_MINS < 256 := lt_of_lt_of_le hdiv hb
  have hbyte : (setSimpleSchedule c ee base m k).2 (base + k) % 256 =
      m / c.SIMPLE_SCHEDULE_GRANULARITY_MINS := by
    unfold setSimpleSchedule
    rw [if_neg (Nat.not_le.mpr hk), if_neg (Nat.not_le.mpr hm)]
    simp [Nat.mod_eq_of_lt h256]
  have hmc : MAX_COMPRESSED_MINS_AFTER_MIDNIGHT c =
      MINS_PER_DAY / c.SIMPLE_SCHEDULE_GRANULARITY_MINS - 1 := by
    unfold MAX_COMPRESSED_MINS_AFTER_MIDNIGHT
    omega
  unfold getSimpleScheduleOn
  rw [if_neg (Nat.not_le.mpr hk), hbyte, hmc, if_neg (by omega),
    Nat.mul_comm c.SIMPLE_SCHEDULE_GRANULARITY_MINS (m / c.SIMPLE_SCHEDULE_GRANULARITY_MINS)]

/-- C2 witness: the round-trip evaluated in the documented build
configuration at slot 0 and requested minute 100. -/
theorem setSchedule_getOn_roundtrip_witness :
    getSimpleScheduleOn cfgA (setSimpleSchedule cfgA eeFF 0 100 0).2 0 0 =
      (if 100 / cfgA.SIMPLE_SCHEDULE_GRANULARITY_MINS * cfgA.SIMPLE_SCHEDULE_GRANULARITY_MINS <
          PREWARM_MINS cfgA
       then 100 / cfgA.SIMPLE_SCHEDULE_GRANULARITY_MINS * cfgA.SIMPLE_SCHEDULE_GRANULARITY_MINS +
         MINS_PER_DAY - PREWARM_MINS cfgA
       else 100 / cfgA.SIMPLE_SCHEDULE_GRANULARITY_MINS * cfgA.SIMPLE_SCHEDULE_GRANULARITY_MINS -
         PREWARM_MINS cfgA) :=
  setSchedule_getOn_roundtrip cfgA eeFF 0 100 0 (by decide) (by decide) (by decide)

/-- C3 counterexample: in a configuration whose pre-warm offset is exactly
40, an anchor decoding to 1430 gives an effective on time of 1390, which is
(1430 - 40) mod 1440, not the 10 stated by the claim. -/
theorem getOn_anchor1430_prewarm40_value :
    ConfigOK cfgC ∧
    PREWARM_MINS cfgC = 40 ∧
    cfgC.SIMPLE_SCHEDULE_GRANULARITY_MINS * (ee143 (0 + 0) % 256) = 1430 ∧
    getSimpleScheduleOn cfgC ee143 0 0 = 1390 ∧
    ¬getSimpleScheduleOn cfgC ee143 0 0 = 10 := by
  decide

/-- C3 (amended): whenever the pre-warm offset exceeds the decoded anchor,
the effective on time wraps forward: it is the anchor plus a day minus the
pre-warm offset. -/
theorem getOn_wrap_when_prewarm_gt_anchor (c : Config) (ee : Nat → Nat) (base k : Nat)
    (_hc : ConfigOK c) (hk : k < c.MAX_SIMPLE_SCHEDULES)
    (hv : ee (base + k) % 256 ≤ MAX_COMPRESSED_MINS_AFTER_MIDNIGHT c)
    (hw : c.SIMPLE_SCHEDULE_GRANULARITY_MINS * (ee (base + k) % 256) < PREWARM_MINS c) :
    getSimpleScheduleOn c ee base k =
      c.SIMPLE_SCHEDULE_GRANULARITY_MINS * (ee (base + k) % 256) + MINS_PER_DAY -
        PREWARM_MINS c := by
  unfold getSimpleScheduleOn
  rw [if_neg (Nat.not_le.mpr hk), if_neg (Nat.not_lt.mpr hv), if_pos hw]

/-- C3 witness: anchor 30 with pre-warm 40 wraps to 1430. -/
theorem getOn_wrap_when_prewarm_gt_anchor_witness :
    getSimpleScheduleOn cfgC ee3 0 0 =
      cfgC.SIMPLE_SCHEDULE_GRANULARITY_MINS * (ee3 (0 + 0) % 256) + MINS_PER_DAY -
        PREWARM_MINS cfgC :=
  getOn_wrap_when_prewarm_gt_anchor cfgC ee3 0 0 (by decide) (by decide) (by decide) (by decide)

/-- C4: the effective off time is the invalid sentinel exactly when the
effective on time is; otherwise it is the on time plus the pre-warm offset
plus the policy-supplied on duration, reduced modulo the day length. -/
theorem getOff_from_getOn (c : Config) (tc : TempClass) (ee : Nat → Nat) (base k : Nat)
    (hc : ConfigOK c) :
    (getSimpleScheduleOff c tc ee base k =
      if getSimpleScheduleOn c ee base k = invalidTime then invalidTime
      else (getSimpleScheduleOn c ee base k + PREWARM_MINS c + onTime c tc) % MINS_PER_DAY) ∧
    (getSimpleScheduleOff c tc ee base k = invalidTime ↔
      getSimpleScheduleOn c ee base k = invalidTime) := by
  obtain ⟨hg, hd, hb, -, -, -, -⟩ := hc
  by_cases h : getSimpleScheduleOn c ee base k = invalidTime
  · rw [getSimpleScheduleOff_of_invalid c tc ee base k h, if_pos h]
    exact ⟨rfl, ⟨fun _ => h, fun _ => rfl⟩⟩
  · have heq := getSimpleScheduleOff_eq c tc ee base k hg hd hb h
    rw [heq, if_neg h]
    refine ⟨rfl, ?_, fun hs => absurd hs h⟩
    intro habs
    have hlt : (getSimpleScheduleOn c ee base k + PREWARM_MINS c + onTime c tc) % MINS_PER_DAY <
        MINS_PER_DAY := Nat.mod_lt _ (by decide)
    rw [habs] at hlt
    simp only [invalidTime, MINS_PER_DAY] at hlt
    omega

/-- C4 witness: the off-time formula evaluated in the documented build
configuration on a programmed slot. -/
theorem getOff_from_getOn_witness :
    (getSimpleScheduleOff cfgA TempClass.eco ee100 0 0 =
      if getSimpleScheduleOn cfgA ee100 0 0 = invalidTime then invalidTime
      else (getSimpleScheduleOn cfgA ee100 0 0 + PREWARM_MINS cfgA +
        onTime cfgA TempClass.eco) % MINS_PER_DAY) ∧
    (getSimpleScheduleOff cfgA TempClass.eco ee100 0 0 = invalidTime ↔
      getSimpleScheduleOn cfgA ee100 0 0 = invalidTime) :=
  getOff_from_getOn cfgA TempClass.eco ee100 0 0 (by decide)

/-- C5: setting a schedule fails and leaves the EEPROM untouched exactly for
an out-of-range slot or an out-of-range requested minute; every other input
succeeds and stores the compressed anchor floor(minutes / granularity). -/
theorem setSchedule_reject_iff (c : Config) (ee : Nat → Nat) (base m k : Nat)
    (hb : MINS_PER_DAY / c.SIMPLE_SCHEDULE_GRANULARITY_MINS ≤ 256) :
    (((setSimpleSchedule c ee base m k).1 = false ∧ (setSimpleSchedule c ee base m k).2 = ee) ↔
      (c.MAX_SIMPLE_SCHEDULES ≤ k ∨ MINS_PER_DAY ≤ m)) ∧
    (k < c.MAX_SIMPLE_SCHEDULES → m < MINS_PER_DAY →
      (setSimpleSchedule c ee base m k).1 = true ∧
      (setSimpleSchedule c ee base m k).2 (base + k) =
        m / c.SIMPLE_SCHEDULE_GRANULARITY_MINS) := by
  constructor
  · constructor
    · rintro ⟨h1, -⟩
      by_contra hcon
      push_neg at hcon
      obtain ⟨hk2, hm2⟩ := hcon
      unfold setSimpleSchedule at h1
      rw [if_neg (Nat.not_le.mpr hk2), if_neg (Nat.not_le.mpr hm2)] at h1
      simp at h1
    · intro h
      unfold setSimpleSchedule
      rcases h with h | h
      · rw [if_pos h]; exact ⟨rfl, rfl⟩
      · by_cases hk2 : c.MAX_SIMPLE_SCHEDULES ≤ k
        · rw [if_pos hk2]; exact ⟨rfl, rfl⟩
        · rw [if_neg hk2, if_pos h]; exact ⟨rfl, rfl⟩
  · intro hk hm
    have h256 := div_lt_256 c.SIMPLE_SCHEDULE_GRANULARITY_MINS m hb hm
    unfold setSimpleSchedule
    rw [if_neg (Nat.not_le.mpr hk), if_neg (Nat.not_le.mpr hm)]
    exact ⟨rfl, by simp [Nat.mod_eq_of_lt h256]⟩

/-- C5 witness: a valid set in the documented build configuration succeeds
and stores 100 / 6 = 16. -/
theorem setSchedule_reject_iff_witness :
    (setSimpleSchedule cfgA eeFF 0 100 0).1 = true ∧
    (setSimpleSchedule cfgA eeFF 0 100 0).2 (0 + 0) =
      100 / cfgA.SIMPLE_SCHEDULE_GRANULARITY_MINS :=
  (setSchedule_reject_iff cfgA eeFF 0 100 0 (by decide)).2 (by decide) (by decide)

/-- C6: an out-of-range slot index, or a stored byte above the maximal
compressed anchor (the unprogrammed 0xFF included), makes
`getSimpleScheduleOn` return the invalid sentinel. -/
theorem getOn_invalid_on_bad_input (c : Config) (ee : Nat → Nat) (base k : Nat)
    (h : c.MAX_SIMPLE_SCHEDULES ≤ k ∨
      MAX_COMPRESSED_MINS_AFTER_MIDNIGHT c < ee (base + k) % 256) :
    getSimpleScheduleOn c ee base k = invalidTime := by
  unfold getSimpleScheduleOn
  rcases h with h | h
  · rw [if_pos h]
  · by_cases h1 : c.MAX_SIMPLE_SCHEDULES ≤ k
    · rw [if_pos h1]
    · rw [if_neg h1, if_pos h]

/-- C6 witness: an unprogrammed byte (0xFF) reads back as schedule absent. -/
theorem getOn_invalid_on_bad_input_witness :
    getSimpleScheduleOn cfgA eeFF 0 0 = invalidTime :=
  getOn_invalid_on_bad_input cfgA eeFF 0 0 (Or.inr (by decide))

/-- C8: the derived constants satisfy the documented formulas — the
pre-warm offset is max(30, granularity + on-period / 2), the pre-pre-warm
offset is 3 * pre-warm / 2 — and pre-pre-warm is at least pre-warm.  The
even pre-warm hypothesis reflects that the source computes 3*(PREWARM/2),
which equals 3*PREWARM/2 whenever PREWARM is even, as in the documented
build where PREWARM = 36. -/
theorem prewarm_constants (c : Config) (hc : ConfigOK c) (he : 2 ∣ PREWARM_MINS c) :
    PREWARM_MINS c =
      max 30 (c.SIMPLE_SCHEDULE_GRANULARITY_MINS + c.LEARNED_ON_PERIOD_M / 2) ∧
    PREPREWARM_MINS c = 3 * PREWARM_MINS c / 2 ∧
    PREWARM_MINS c ≤ PREPREWARM_MINS c := by
  obtain ⟨-, -, -, h170, -, -, -⟩ := hc
  have h1 : PREWARM_MINS c =
      max 30 (c.SIMPLE_SCHEDULE_GRANULARITY_MINS + c.LEARNED_ON_PERIOD_M / 2) :=
    Nat.mod_eq_of_lt (lt_of_le_of_lt h170 (by norm_num))
  have h2 : PREWARM_MINS c ≤ 170 := by rw [h1]; exact h170
  obtain ⟨t, ht⟩ := he
  have h3 : PREPREWARM_MINS c = (3 * (PREWARM_MINS c / 2)) % 256 := rfl
  have hpp : PREPREWARM_MINS c = 3 * PREWARM_MINS c / 2 := by
    clear h1 h170
    omega
  have hle : PREWARM_MINS c ≤ PREPREWARM_MINS c := by
    rw [hpp, ht]
    omega
  exact ⟨h1, hpp, hle⟩

/-- C8 witness: in the documented build configuration the pre-warm offset
is 36, the pre-pre-warm offset is 54 = 3 * 36 / 2, and 36 ≤ 54. -/
theorem prewarm_constants_witness :
    PREWARM_MINS cfgA =
      max 30 (cfgA.SIMPLE_SCHEDULE_GRANULARITY_MINS + cfgA.LEARNED_ON_PERIOD_M / 2) ∧
    PREPREWARM_MINS cfgA = 3 * PREWARM_MINS cfgA / 2 ∧
    PREWARM_MINS cfgA ≤ PREPREWARM_MINS cfgA :=
  prewarm_constants cfgA (by decide) (by decide)

/-- C9: every non-sentinel effective on or off time lies inside the day,
and the sum reduced by the single conditional subtraction in
`getSimpleScheduleOff` is below two day lengths before reduction. -/
theorem times_within_day (c : Config) (tc : TempClass) (ee : Nat → Nat) (base k : Nat)
    (hc : ConfigOK c) :
    (getSimpleScheduleOn c ee base k ≠ invalidTime →
      getSimpleScheduleOn c ee base k < MINS_PER_DAY) ∧
    (getSimpleScheduleOff c tc ee base k ≠ invalidTime →
      getSimpleScheduleOff c tc ee base k < MINS_PER_DAY) ∧
    (getSimpleScheduleOn c ee base k ≠ invalidTime →
      getSimpleScheduleOn c ee base k + PREWARM_MINS c + onTime c tc < 2 * MINS_PER_DAY) := by
  obtain ⟨hg, hd, hb, -, -, -, -⟩ := hc
  refine ⟨fun h => getSimpleScheduleOn_lt c ee base k hg hd hb h, fun h => ?_, fun h => ?_⟩
  · have hs : getSimpleScheduleOn c ee base k ≠ invalidTime := by
      intro habs
      exact h (getSimpleScheduleOff_of_invalid c tc ee base k habs)
    rw [getSimpleScheduleOff_eq c tc ee base k hg hd hb hs]
    exact Nat.mod_lt _ (by decide)
  · have hlt := getSimpleScheduleOn_lt c ee base k hg hd hb h
    have hP : PREWARM_MINS c ≤ 255 := mod256_le _
    have hT : onTime c tc ≤ 255 := onTime_le c tc
    simp only [MINS_PER_DAY] at hlt ⊢
    omega

/-- C9 witness: both effective times of a programmed slot in the documented
build configuration lie inside the day. -/
theorem times_within_day_witness :
    getSimpleScheduleOn cfgA ee100 0 0 < MINS_PER_DAY ∧
    getSimpleScheduleOff cfgA TempClass.eco ee100 0 0 < MINS_PER_DAY :=
  ⟨(times_within_day cfgA TempClass.eco ee100 0 0 (by decide)).1 (by decide),
   (times_within_day cfgA TempClass.eco ee100 0 0 (by decide)).2.1 (by decide)⟩

/-- C10: set and clear touch at most the one EEPROM byte of their slot;
every other address keeps its byte and every other slot keeps its effective
on time. -/
theorem set_clear_frame (c : Config) (ee : Nat → Nat) (base m k : Nat)
    (hk : k < c.MAX_SIMPLE_SCHEDULES) :
    (∀ a, a ≠ base + k →
      (setSimpleSchedule c ee base m k).2 a = ee a ∧
      clearSimpleSchedule c ee base k a = ee a) ∧
    (∀ j, j ≠ k →
      getSimpleScheduleOn c (setSimpleSchedule c ee base m k).2 base j =
        getSimpleScheduleOn c ee base j ∧
      getSimpleScheduleOn c (clearSimpleSchedule c ee base k) base j =
        getSimpleScheduleOn c ee base j) := by
  have hset : ∀ a, a ≠ base + k → (setSimpleSchedule c ee base m k).2 a = ee a := by
    intro a ha
    unfold setSimpleSchedule
    by_cases hm2 : MINS_PER_DAY ≤ m
    · rw [if_neg (Nat.not_le.mpr hk), if_pos hm2]
    · rw [if_neg (Nat.not_le.mpr hk), if_neg hm2]
      exact if_neg ha
  have hclear : ∀ a, a ≠ base + k → clearSimpleSchedule c ee base k a = ee a := by
    intro a ha
    unfold clearSimpleSchedule
    rw [if_neg (Nat.not_le.mpr hk)]
    exact if_neg ha
  refine ⟨fun a ha => ⟨hset a ha, hclear a ha⟩, fun j hj => ?_⟩
  have haddr : base + j ≠ base + k := by omega
  exact ⟨getSimpleScheduleOn_congr c _ ee base j (hset (base + j) haddr),
    getSimpleScheduleOn_congr c _ ee base j (hclear (base + j) haddr)⟩

/-- C10 witness: writing slot 0 leaves address 7 alone, and clearing slot 0
leaves slot 1's effective on time unchanged. -/
theorem set_clear_frame_witness :
    (setSimpleSchedule cfgA eeFF 0 100 0).2 7 = eeFF 7 ∧
    getSimpleScheduleOn cfgA (clearSimpleSchedule cfgA eeFF 0 0) 0 1 =
      getSimpleScheduleOn cfgA eeFF 0 1 :=
  ⟨((set_clear_frame cfgA eeFF 0 100 0 (by decide)).1 7 (by decide)).1,
   ((set_clear_frame cfgA eeFF 0 100 0 (by decide)).2 1 (by decide)).2⟩

end OpenTRV
